import Mathlib

/-!
# Verification of the CityRetail ETL pipeline

A shallow embedding, in Lean 4, of the CityRetail batch ETL pipeline
(`src/incremental_etl.py`, `src/load_to_postgres.py`, `src/clean_data.py`,
`src/main.py`, `src/logger.py`) together with theorems settling the
specification's testable properties.

Conventions of the embedding:
* pandas DataFrames become Lean lists of rows; a generic dimension row is a
  pair of its integer primary key with the remaining cells;
* CSV cell values become the inductive `RawVal` (a null marker, an integer,
  or a string), since the claims under study only exercise those shapes;
* external effects (SQL commands, snapshot-file appends, log output) become
  elements of an explicit trace (`Action` for the incremental engine,
  `Cmd` for the full-load path, `OEvent` for the orchestrator);
* fallible external operations (an upsert hitting a constraint violation,
  a maintenance script erroring) are driven by explicit boolean oracles,
  so a run is a pure function of its inputs and the oracle;
* Python exceptions become `Except`: a function that lets an exception
  propagate returns `Except.error`, a function that catches and swallows
  returns `Except.ok`.
-/

namespace CityRetail

/-- A raw cell value as read from CSV by pandas: a null/NaN marker, an
integer, or a string. -/
inductive RawVal where
  | null : RawVal
  | intv : Int → RawVal
  | strv : String → RawVal
deriving DecidableEq, Repr

/-- A generic dimension-table row: primary-key value paired with the
remaining (non-key) cells, in column order. -/
abbrev GRow := Int × List RawVal

/-- A sales-fact row: `salesid` key, then the `dateid` cell (kept separate
because `run_incremental_clean_and_load_all` coerces it with
`astype(int)`), then the remaining cells. -/
abbrev SRow := Int × RawVal × List RawVal

/-- `filter_new_rows` (incremental_etl.py, lines 79-93):
`df[~df[id_column].isin(existing_ids)]`.  The column selection
`df[id_column]` is embedded as the key projection `key`. -/
def filter_new_rows {ρ : Type} (df : List ρ) (key : ρ → Int)
    (existing_ids : List Int) : List ρ :=
  df.filter (fun r => ! existing_ids.contains (key r))

/-- The state change `INSERT ... ON CONFLICT (key) DO UPDATE SET` performed
by `insert_upsert`'s `cursor.executemany` makes on the warehouse table:
row by row, update in place on key conflict, else append. -/
def upsert_rows {ρ : Type} (key : ρ → Int) (wh : List ρ) (rows : List ρ) :
    List ρ :=
  rows.foldl (fun acc r =>
    if acc.any (fun x => key x == key r) then
      acc.map (fun x => if key x == key r then r else x)
    else acc ++ [r]) wh

/-- Observable actions of one incremental run, in the order issued. -/
inductive Action where
  | fetchIds : String → Action
  | snapshotAppend : String → List Int → Action
  | upsert : String → List Int → Action
  | logNoNew : String → Action
  | logUpsertError : String → Action
  | commit : Action
  | execScript : String → Action
  | logScriptError : Action
deriving DecidableEq, Repr

/-- One per-table block of `run_incremental_clean_and_load_all`
(incremental_etl.py, lines 141-194): fetch existing ids, filter to the new
rows, and if any exist append them to the cleaned snapshot file and upsert
them; `upsertFails` is the oracle for the `executemany` raising (e.g. a
constraint violation), in which case `insert_upsert` logs and re-raises
(lines 130-132), and the exception propagates out of the run. -/
def incremental_table_block {ρ : Type} (table file : String) (key : ρ → Int)
    (upsertFails : Bool) (wh : List ρ) (cleaned : List ρ) :
    List Action × Except Unit (List ρ) :=
  let existing_ids := wh.map key
  let newRows := filter_new_rows cleaned key existing_ids
  if newRows.isEmpty then
    ([Action.fetchIds table, Action.logNoNew table], Except.ok wh)
  else if upsertFails then
    ([Action.fetchIds table, Action.snapshotAppend file (newRows.map key),
      Action.logUpsertError table], Except.error ())
  else
    ([Action.fetchIds table, Action.snapshotAppend file (newRows.map key),
      Action.upsert table (newRows.map key)],
     Except.ok (upsert_rows key wh newRows))

/-- `sales["dateid"].astype(int)` applied to one cell: a null marker
raises, an integer passes through, a string must parse as an integer
literal. -/
def astype_int : RawVal → Except String Int
  | RawVal.null => Except.error "cannot convert NA to integer"
  | RawVal.intv n => Except.ok n
  | RawVal.strv s =>
      match s.toInt? with
      | some n => Except.ok n
      | none => Except.error "invalid literal for int"

/-- `sales["dateid"] = sales["dateid"].astype(int)` (incremental_etl.py,
line 185) over the whole column: fails if any row's `dateid` fails. -/
def coerce_sales_dateid : List SRow → Except String (List SRow)
  | [] => Except.ok []
  | r :: rest =>
      match astype_int r.2.1 with
      | Except.error e => Except.error e
      | Except.ok n =>
          match coerce_sales_dateid rest with
          | Except.error e => Except.error e
          | Except.ok rs => Except.ok ((r.1, RawVal.intv n, r.2.2) :: rs)

/-- Failure oracle for one incremental run: whether each table's upsert
raises, and whether each maintenance script errors when executed. -/
structure Oracle where
  failProduct : Bool
  failStore : Bool
  failDate : Bool
  failSales : Bool
  failViews : Bool
  failIndexes : Bool
deriving DecidableEq, Repr

/-- Warehouse state: the four star-schema tables. -/
structure Warehouse where
  dimproduct : List GRow
  dimstore : List GRow
  dimdate : List GRow
  factsales : List SRow
deriving DecidableEq, Repr

/-- Input of one incremental run: the cleaned product/store/calendar
tables and the raw sales table (its `dateid` still uncoerced).  The
cleaning transforms are pure, so an unchanged raw input yields these
unchanged. -/
structure IncInput where
  products : List GRow
  stores : List GRow
  calendar : List GRow
  sales : List SRow
deriving DecidableEq, Repr

/-- The maintenance-script tail shared by both load modes: execute
`kpi_views.sql` then `kpi_indexes.sql` inside one `try` whose handler only
logs, so a failure of the first script skips the second, and no failure
propagates. -/
def scriptActions (failViews failIndexes : Bool) : List Action :=
  Action.execScript "kpi_views.sql" ::
    (if failViews then [Action.logScriptError]
     else Action.execScript "kpi_indexes.sql" ::
       (if failIndexes then [Action.logScriptError] else []))

/-- `run_incremental_clean_and_load_all` (incremental_etl.py, lines
14-211): the four per-table blocks in dependency order, the sales `dateid`
coercion just before the FactSales block, one commit, then the
maintenance scripts.  An exception in any block aborts the run
(no surrounding `try`); the script phase swallows its own errors. -/
def run_incremental_clean_and_load_all (o : Oracle) (wh : Warehouse)
    (inp : IncInput) : List Action × Except Unit Warehouse :=
  match incremental_table_block "dimproduct" "products.csv" Prod.fst
      o.failProduct wh.dimproduct inp.products with
  | (a1, Except.error _) => (a1, Except.error ())
  | (a1, Except.ok p') =>
    match incremental_table_block "dimstore" "stores.csv" Prod.fst
        o.failStore wh.dimstore inp.stores with
    | (a2, Except.error _) => (a1 ++ a2, Except.error ())
    | (a2, Except.ok s') =>
      match incremental_table_block "dimdate" "calendar.csv" Prod.fst
          o.failDate wh.dimdate inp.calendar with
      | (a3, Except.error _) => (a1 ++ a2 ++ a3, Except.error ())
      | (a3, Except.ok d') =>
        match coerce_sales_dateid inp.sales with
        | Except.error _ => (a1 ++ a2 ++ a3, Except.error ())
        | Except.ok salesCoerced =>
          match incremental_table_block "factsales" "sales.csv" Prod.fst
              o.failSales wh.factsales salesCoerced with
          | (a4, Except.error _) => (a1 ++ a2 ++ a3 ++ a4, Except.error ())
          | (a4, Except.ok f') =>
            (a1 ++ a2 ++ a3 ++ a4 ++ [Action.commit] ++
               scriptActions o.failViews o.failIndexes,
             Except.ok ⟨p', s', d', f'⟩)

/-! ## Full-load path (`load_to_postgres.py`) -/

/-- A command issued during a full load, in the order issued. -/
inductive Cmd where
  | del : String → Cmd
  | ins : String → Cmd
  | logError : String → Cmd
  | execScript : String → Cmd
  | logScriptError : Cmd
deriving DecidableEq, Repr

/-- Failure oracle for one table's full load: whether `pd.read_csv`
succeeds, and whether the bulk `executemany` insert succeeds. -/
structure TblLoad where
  readOk : Bool
  insOk : Bool
deriving DecidableEq, Repr

/-- Failure oracle for one full-load run. -/
structure LoadOracle where
  clearOk : Bool
  products : TblLoad
  stores : TblLoad
  calendar : TblLoad
  sales : TblLoad
  scriptConnOk : Bool
  failViews : Bool
  failIndexes : Bool
deriving DecidableEq, Repr

/-- `load_csv_to_table` (load_to_postgres.py, lines 11-37): read the
cleaned CSV, `DELETE FROM table`, bulk insert; on any failure log the
error and re-raise (`Bool` result `true` means an exception escaped). -/
def load_csv_to_table (t : TblLoad) (table : String) : List Cmd × Bool :=
  if !t.readOk then
    ([Cmd.logError table], true)
  else if !t.insOk then
    ([Cmd.del table, Cmd.ins table, Cmd.logError table], true)
  else
    ([Cmd.del table, Cmd.ins table], false)

/-- `timed_load` (load_to_postgres.py, lines 74-96): runs
`load_csv_to_table` inside a `try` whose handler only calls
`logger.exception` — the error is logged a second time and swallowed, so
`timed_load` always returns normally. -/
def timed_load (t : TblLoad) (table : String) : List Cmd :=
  match load_csv_to_table t table with
  | (cmds, true) => cmds ++ [Cmd.logError table]
  | (cmds, false) => cmds

/-- The maintenance-script tail of `run_load` (lines 160-169): a fresh
connection (whose failure skips both scripts), then the two scripts with
errors logged and swallowed. -/
def fullScriptCmds (scriptConnOk failViews failIndexes : Bool) : List Cmd :=
  if !scriptConnOk then [Cmd.logScriptError]
  else
    Cmd.execScript "kpi_views.sql" ::
      (if failViews then [Cmd.logScriptError]
       else Cmd.execScript "kpi_indexes.sql" ::
         (if failIndexes then [Cmd.logScriptError] else []))

/-- `run_load` (load_to_postgres.py, lines 98-169): clear FactSales first
(`clear_table`, not wrapped in a `try`, so its failure aborts the run),
then load the three dimensions and finally FactSales through `timed_load`,
then the maintenance scripts.  Per-table load failures are swallowed by
`timed_load`, so on a successful clear the run always completes. -/
def run_load (o : LoadOracle) : List Cmd × Except Unit Unit :=
  if !o.clearOk then ([], Except.error ())
  else
    (Cmd.del "factsales" ::
       (timed_load o.products "dimproduct" ++
        timed_load o.stores "dimstore" ++
        timed_load o.calendar "dimdate" ++
        timed_load o.sales "factsales" ++
        fullScriptCmds o.scriptConnOk o.failViews o.failIndexes),
     Except.ok ())

/-- The tables named by the `INSERT` commands of a trace, in order. -/
def insTables (cmds : List Cmd) : List String :=
  cmds.filterMap (fun c => match c with
    | Cmd.ins t => some t
    | _ => none)

/-! ## Orchestrator (`main.py`) -/

/-- The database credentials as the environment presents them:
each may be absent (`os.environ[...]` then raises `KeyError`). -/
structure Env where
  host : Option String
  port : Option String
  dbname : Option String
  user : Option String
  pass_ : Option String
deriving DecidableEq, Repr

/-- Whether any of the five credentials is absent. -/
def Env.missing (e : Env) : Bool :=
  e.host.isNone || e.port.isNone || e.dbname.isNone || e.user.isNone ||
    e.pass_.isNone

/-- Orchestrator-level I/O events, restricted to the classes the spec's
error taxonomy names: raw-file reads, cleaned-file writes, database
commands (connections included), and the configuration failure. -/
inductive OEvent where
  | rawRead : OEvent
  | cleanedWrite : OEvent
  | dbCmd : OEvent
  | cfgError : OEvent
deriving DecidableEq, Repr

/-- `run_etl` (main.py, lines 34-97), at the granularity of `OEvent`.

Incremental branch: `run_incremental_clean_and_load_all` reads the five
credentials first (incremental_etl.py, lines 36-40) — a missing one raises
`KeyError` before `wait_for_postgres`, before `load_raw_datasets` and
before any snapshot append; otherwise the run connects (db), reads raw
files, fetches ids (db), appends snapshots (cleaned write), upserts and
commits (db).

Full branch: cleaning is skipped when the cleaned files exist and `force`
is not set, otherwise raw files are read and cleaned files written
(`save_cleaned_dataframes`); only then does `run_load` read the
credentials (load_to_postgres.py, lines 121-125), so a missing credential
fails *after* that file I/O, though still before any database command. -/
def run_etl (e : Env) (force incremental cleanedExist : Bool) :
    List OEvent × Except Unit Unit :=
  if incremental then
    if e.missing then ([OEvent.cfgError], Except.error ())
    else
      ([OEvent.dbCmd, OEvent.dbCmd, OEvent.rawRead, OEvent.dbCmd,
        OEvent.cleanedWrite, OEvent.dbCmd, OEvent.dbCmd], Except.ok ())
  else
    let pre := if !force && cleanedExist then []
               else [OEvent.rawRead, OEvent.cleanedWrite]
    if e.missing then (pre ++ [OEvent.cfgError], Except.error ())
    else (pre ++ [OEvent.dbCmd, OEvent.dbCmd], Except.ok ())

/-! ## Transform functions (`clean_data.py`) -/

/-- A raw store row (columns already lowercased), with the columns the
code touches: key, the two columns echoed in the unmapped-city warning,
and the raw city name. -/
structure StoreRow where
  storeid : Int
  storename : String
  region : String
  city : String
deriving DecidableEq, Repr

/-- A row of `cities_lookup.csv`. -/
structure LookupRow where
  rawcity : String
  standardcity : String
deriving DecidableEq, Repr

/-- A cleaned store row: `city` is the standardized name, or null when the
raw city had no lookup match. -/
structure CleanStoreRow where
  storeid : Int
  storename : String
  region : String
  city : Option String
deriving DecidableEq, Repr

/-- `standardize_city_names` (clean_data.py, lines 9-45):
`stores_df.merge(lookup_df, left_on="city", right_on="rawcity",
how="left")`, then drop the raw city and keep `standardcity` as `city`.
A pandas left merge keeps the left rows in order and pairs each with every
matching right row (in right order); a left row without a match is kept
once with the right columns null.  Unmapped rows are logged, never
dropped. -/
def standardize_city_names (stores_df : List StoreRow)
    (lookup_df : List LookupRow) : List CleanStoreRow :=
  stores_df.flatMap (fun s =>
    match lookup_df.filter (fun l => l.rawcity == s.city) with
    | [] => [⟨s.storeid, s.storename, s.region, none⟩]
    | ms => ms.map (fun m => ⟨s.storeid, s.storename, s.region,
        some m.standardcity⟩))

/-- Gregorian leap year, as in the proleptic Gregorian calendar pandas
timestamps use. -/
def isLeap (y : Nat) : Bool :=
  (y % 4 == 0 && y % 100 != 0) || y % 400 == 0

/-- Days in the Gregorian year `y`. -/
def daysInYear (y : Nat) : Nat :=
  if isLeap y then 366 else 365

/-- Days before January 1st of year `y` in the proleptic Gregorian
calendar (CPython's `_days_before_year`): day ordinal 1 is 0001-01-01. -/
def daysBeforeYear (y : Nat) : Nat :=
  let z := y - 1
  365 * z + z / 4 - z / 100 + z / 400

/-- The day ordinal of day `doy` (1-based) of year `y`. -/
def dayOrdinal (y doy : Nat) : Nat :=
  daysBeforeYear y + doy

/-- Weekday of a day ordinal, Monday = 0 .. Sunday = 6 (ordinal 1,
0001-01-01, is a Monday); this is the convention of pandas
`Series.dt.weekday`. -/
def weekdayOfOrdinal (ord : Nat) : Nat :=
  (ord + 6) % 7

/-- The day ordinal of the Monday starting ISO week 1 of year `y`
(CPython's `_isoweek1monday`): the Monday of the week containing
January 1st, pushed one week later when January 1st falls after a
Thursday.  Kept in `Int` because it can precede year `y`. -/
def isoweek1monday (y : Nat) : Int :=
  let firstday : Int := (daysBeforeYear y : Int) + 1
  let firstweekday : Int := (firstday + 6) % 7
  let week1monday : Int := firstday - firstweekday
  if firstweekday > 3 then week1monday + 7 else week1monday

/-- The ISO-8601 week number of day `doy` of year `y` (CPython's
`date.isocalendar`, which pandas `Series.dt.isocalendar().week` follows).
`Int` division `/` is floor division here since the divisor 7 is
positive, matching Python's `divmod`. -/
def isoWeekNumber (y doy : Nat) : Nat :=
  let today : Int := (dayOrdinal y doy : Int)
  let week : Int := (today - isoweek1monday y) / 7
  if week < 0 then
    ((today - isoweek1monday (y - 1)) / 7 + 1).toNat
  else if 52 ≤ week ∧ isoweek1monday (y + 1) ≤ today then 1
  else (week + 1).toNat

/-- A parsed, valid Gregorian date: year and 1-based day of year.  Any
value `pd.to_datetime` successfully produces is of this shape. -/
structure IsoDate where
  year : Nat
  doy : Nat
  hYear : 1 ≤ year
  hLow : 1 ≤ doy
  hHigh : doy ≤ daysInYear year

/-- The day ordinal of a parsed date. -/
def IsoDate.ordinal (d : IsoDate) : Nat :=
  dayOrdinal d.year d.doy

/-- A raw calendar row: key and the unparsed date string. -/
structure CalRow where
  dateid : Int
  dateStr : String

/-- A cleaned calendar row.  All three derived columns are embedded as
nullable so the spec's nullability statements are expressible; the code
in fact produces a non-nullable boolean `isweekend` column (see
`parse_calendar_dates`). -/
structure CleanCalRow where
  dateid : Int
  date : Option IsoDate
  weeknumber : Option Nat
  isweekend : Option Bool

/-- pandas `series >= 5` on the float column `dt.weekday`: a NaN cell
(from a NaT date) compares as `False`, so the result is a non-nullable
boolean column. -/
def pandasWeekdayGe5 : Option Nat → Bool
  | none => false
  | some w => decide (5 ≤ w)

/-- `parse_calendar_dates` (clean_data.py, lines 47-81), parameterized by
the `pd.to_datetime(..., errors="coerce")` parser: `date` is the parse
result (null on failure), `weeknumber` is `dt.isocalendar().week`
(a nullable UInt32 column: null exactly where `date` is null), and
`isweekend` is `dt.weekday >= 5` (a non-nullable boolean column: `False`
where `date` is null, because the NaN weekday compares false). -/
def parse_calendar_dates (toDatetime : String → Option IsoDate)
    (calendar_df : List CalRow) : List CleanCalRow :=
  calendar_df.map (fun r =>
    let d := toDatetime r.dateStr
    { dateid := r.dateid
      date := d
      weeknumber := d.map (fun x => isoWeekNumber x.year x.doy)
      isweekend := some (pandasWeekdayGe5
        (d.map (fun x => weekdayOfOrdinal x.ordinal))) })

/-! ## Logger factory (`logger.py`) -/

/-- An output handler attached to a logger. -/
inductive Handler where
  | fileHandler : String → Handler
  | consoleHandler : Handler
deriving DecidableEq, Repr

/-- The state of one named logger: its level and attached handlers.
`logging.getLogger` creates loggers at level `NOTSET` (0) with no
handlers; `INFO` is 20. -/
structure LoggerState where
  level : Nat
  handlers : List Handler
deriving DecidableEq, Repr

/-- The process-wide logger registry kept by the `logging` module. -/
abbrev Registry := List (String × LoggerState)

/-- `logging.getLogger(name)`: the registered state, or a fresh logger. -/
def getLogger (reg : Registry) (name : String) : LoggerState :=
  (reg.lookup name).getD ⟨0, []⟩

/-- Store the (possibly new) state of a named logger back in the
registry. -/
def setReg (reg : Registry) (name : String) (st : LoggerState) : Registry :=
  if (reg.lookup name).isSome then
    reg.map (fun p => if p.1 = name then (name, st) else p)
  else (name, st) :: reg

/-- `setup_logger` (logger.py, lines 9-46): fetch or create the named
logger, set its level to INFO, and only when it has no handlers yet attach
the file handler and the console handler. -/
def setup_logger (reg : Registry) (log_name log_path : String) : Registry :=
  let lg := getLogger reg log_name
  let lg := { lg with level := 20 }
  let lg :=
    if lg.handlers.isEmpty then
      { lg with handlers := [Handler.fileHandler log_path,
                             Handler.consoleHandler] }
    else lg
  setReg reg log_name lg

/-- `setup_logger` iterated `k` times on the same name and path. -/
def setup_logger_iter (k : Nat) (reg : Registry) (log_name log_path : String) :
    Registry :=
  match k with
  | 0 => reg
  | Nat.succ n => setup_logger (setup_logger_iter n reg log_name log_path)
      log_name log_path

/-! ## Mode detection (`incremental_etl.py`, `should_use_incremental`) -/

/-- `should_use_incremental` (incremental_etl.py, lines 229-250),
parameterized by the outcome of connecting and running
`SELECT COUNT(*) FROM dimproduct`: on success, incremental iff the count
is positive; any exception (the whole body is inside the `try`, the
credential lookups included) is caught, a warning is logged, and full mode
(`false`) is returned — the function is total and never re-raises. -/
def should_use_incremental (countResult : Except String Nat) : Bool :=
  match countResult with
  | Except.ok count => decide (0 < count)
  | Except.error _ => false

/-! ## Helper lemmas on the incremental engine -/

theorem mem_filter_new_rows {ρ : Type} (df : List ρ) (key : ρ → Int)
    (existing_ids : List Int) (r : ρ) :
    r ∈ filter_new_rows df key existing_ids ↔
      r ∈ df ∧ key r ∉ existing_ids := by
  simp [filter_new_rows, List.mem_filter]

theorem filter_new_rows_eq_nil {ρ : Type} (df : List ρ) (key : ρ → Int)
    (existing_ids : List Int) (h : ∀ r ∈ df, key r ∈ existing_ids) :
    filter_new_rows df key existing_ids = [] := by
  rw [filter_new_rows, List.filter_eq_nil_iff]
  intro r hr
  simp [h r hr]

/-- A saturated table (every cleaned key already present) takes the
empty-delta branch: no snapshot append, no upsert, state unchanged. -/
theorem incremental_table_block_saturated {ρ : Type} (table file : String)
    (key : ρ → Int) (fails : Bool) (wh cleaned : List ρ)
    (h : ∀ r ∈ cleaned, key r ∈ wh.map key) :
    incremental_table_block table file key fails wh cleaned =
      ([Action.fetchIds table, Action.logNoNew table], Except.ok wh) := by
  have hnil : filter_new_rows cleaned key (wh.map key) = [] :=
    filter_new_rows_eq_nil _ _ _ h
  simp [incremental_table_block, hnil]

theorem upsert_rows_map_key {ρ : Type} (key : ρ → Int) (rows : List ρ) :
    ∀ (wh : List ρ) (k : Int),
      k ∈ (upsert_rows key wh rows).map key ↔
        k ∈ wh.map key ∨ k ∈ rows.map key := by
  induction rows with
  | nil => intro wh k; simp [upsert_rows]
  | cons r rest ih =>
      intro wh k
      have hstep :
          upsert_rows key wh (r :: rest) =
            upsert_rows key
              (if wh.any (fun x => key x == key r) then
                wh.map (fun x => if key x == key r then r else x)
               else wh ++ [r]) rest := rfl
      rw [hstep, ih]
      by_cases hany : wh.any (fun x => key x == key r) = true
      · have hmemr : key r ∈ wh.map key := by
          rcases List.any_eq_true.mp hany with ⟨x, hx, hkx⟩
          have hxx : key x = key r := by simpa using hkx
          exact hxx ▸ List.mem_map_of_mem key hx
        have hkeys : (wh.map (fun x => if key x == key r then r else x)).map
            key = wh.map key := by
          rw [List.map_map]
          apply List.map_congr_left
          intro x _
          by_cases hx : key x = key r <;> simp [Function.comp, hx]
        simp only [hany, if_pos, hkeys, List.map_cons, List.mem_cons]
        constructor
        · rintro (h | h)
          · exact Or.inl h
          · exact Or.inr (Or.inr h)
        · rintro (h | h | h)
          · exact Or.inl h
          · exact Or.inl (h ▸ hmemr)
          · exact Or.inr h
      · simp only [Bool.not_eq_true] at hany
        simp only [hany, Bool.false_eq_true, if_false, List.map_append,
          List.map_cons, List.map_nil, List.mem_append, List.mem_cons,
          List.mem_singleton, List.not_mem_nil, or_false]
        tauto

/-- After a successful table block, every cleaned key is present in the
resulting warehouse table. -/
theorem incremental_table_block_ok_keys {ρ : Type} {table file : String}
    {key : ρ → Int} {fails : Bool} {wh cleaned : List ρ}
    {acts : List Action} {wh' : List ρ}
    (h : incremental_table_block table file key fails wh cleaned =
      (acts, Except.ok wh')) :
    ∀ r ∈ cleaned, key r ∈ wh'.map key := by
  intro r hr
  simp only [incremental_table_block] at h
  split at h
  · rename_i hempty
    rw [Prod.mk.injEq] at h
    obtain ⟨-, h2⟩ := h
    injection h2 with h3
    subst h3
    by_cases hk : key r ∈ wh.map key
    · exact hk
    · exact absurd (List.isEmpty_iff.mp hempty) (by
        have hmem : r ∈ filter_new_rows cleaned key (wh.map key) :=
          (mem_filter_new_rows _ _ _ _).mpr ⟨hr, hk⟩
        intro hn
        rw [hn] at hmem
        exact List.not_mem_nil r hmem)
  · split at h
    · exact absurd h (by simp)
    · rw [Prod.mk.injEq] at h
      obtain ⟨-, h2⟩ := h
      injection h2 with h3
      subst h3
      rw [upsert_rows_map_key]
      by_cases hk : key r ∈ wh.map key
      · exact Or.inl hk
      · exact Or.inr (List.mem_map_of_mem key
          ((mem_filter_new_rows _ _ _ _).mpr ⟨hr, hk⟩))

/-- The commit action is never issued inside a table block. -/
theorem incremental_table_block_no_commit {ρ : Type} (table file : String)
    (key : ρ → Int) (fails : Bool) (wh cleaned : List ρ) :
    Action.commit ∉ (incremental_table_block table file key fails wh
      cleaned).1 := by
  simp only [incremental_table_block]
  split
  · simp
  · split <;> simp

/-- Every action of a table block names that block's table or snapshot
file in the expected constructor. -/
theorem incremental_table_block_mem {ρ : Type} {table file : String}
    {key : ρ → Int} {fails : Bool} {wh cleaned : List ρ} {a : Action}
    (h : a ∈ (incremental_table_block table file key fails wh cleaned).1) :
    a = Action.fetchIds table ∨ a = Action.logNoNew table ∨
      a = Action.logUpsertError table ∨
      a = Action.snapshotAppend file
        ((filter_new_rows cleaned key (wh.map key)).map key) ∨
      a = Action.upsert table
        ((filter_new_rows cleaned key (wh.map key)).map key) := by
  simp only [incremental_table_block] at h
  split at h
  · simp only [List.mem_cons, List.not_mem_nil, or_false] at h
    tauto
  · split at h <;>
    · simp only [List.mem_cons, List.not_mem_nil, or_false] at h
      tauto

/-- A successful table block never logs an upsert error. -/
theorem incremental_table_block_ok_no_errlog {ρ : Type}
    {table file : String} {key : ρ → Int} {fails : Bool}
    {wh cleaned : List ρ} {acts : List Action} {wh' : List ρ}
    (h : incremental_table_block table file key fails wh cleaned =
      (acts, Except.ok wh')) (t : String) :
    Action.logUpsertError t ∉ acts := by
  simp only [incremental_table_block] at h
  split at h
  · rw [Prod.mk.injEq] at h
    obtain ⟨h1, -⟩ := h
    subst h1; simp
  · split at h
    · exact absurd h (by simp)
    · rw [Prod.mk.injEq] at h
      obtain ⟨h1, -⟩ := h
      subst h1; simp

/-! ## Claim theorems -/

/-- C1: in incremental mode, for every cleaned table with its key column
and every set of existing warehouse keys, the set of rows passed to the
batched upsert is exactly the set of cleaned rows whose key is not among
the existing keys, and no row whose key is among the existing keys ever
appears in the upsert's insert list. -/
theorem c1_upsert_gets_exactly_new_rows {ρ : Type} (cleaned wh : List ρ)
    (key : ρ → Int) (table file : String) (fails : Bool) :
    (∀ r, r ∈ filter_new_rows cleaned key (wh.map key) ↔
        r ∈ cleaned ∧ key r ∉ wh.map key) ∧
    (∀ acts res t ks,
        incremental_table_block table file key fails wh cleaned =
          (acts, res) →
        Action.upsert t ks ∈ acts →
        t = table ∧
          ks = (filter_new_rows cleaned key (wh.map key)).map key ∧
          ∀ k ∈ ks, k ∉ wh.map key) := by
  constructor
  · intro r
    exact mem_filter_new_rows _ _ _ _
  · intro acts res t ks heq hmem
    have hmem' : Action.upsert t ks ∈
        (incremental_table_block table file key fails wh cleaned).1 := by
      rw [heq]; exact hmem
    rcases incremental_table_block_mem hmem' with h | h | h | h | h
    · exact absurd h (by simp)
    · exact absurd h (by simp)
    · exact absurd h (by simp)
    · exact absurd h (by simp)
    · injection h with h1 h2
      refine ⟨h1, h2, ?_⟩
      intro k hk
      rw [h2] at hk
      rcases List.mem_map.mp hk with ⟨r, hr, hkr⟩
      rcases (mem_filter_new_rows _ _ _ _).mp hr with ⟨-, hnotin⟩
      exact hkr ▸ hnotin

/-- Witness for C1 at the spec's own example: warehouse `dimproduct`
contains `productid = 7`, raw products has ids 7 and 8, and exactly the
row with id 8 reaches the upsert. -/
theorem c1_witness :
    incremental_table_block "dimproduct" "products.csv" Prod.fst false
        [((7 : Int), ([] : List RawVal))] [(7, []), (8, [])] =
      ([Action.fetchIds "dimproduct",
        Action.snapshotAppend "products.csv" [8],
        Action.upsert "dimproduct" [8]],
       Except.ok [((7 : Int), ([] : List RawVal)), (8, [])]) ∧
    Action.upsert "dimproduct" [8] ∈
      [Action.fetchIds "dimproduct",
       Action.snapshotAppend "products.csv" [8],
       Action.upsert "dimproduct" [8]] ∧
    ("dimproduct" = "dimproduct" ∧
      [(8 : Int)] =
        (filter_new_rows [((7 : Int), ([] : List RawVal)), (8, [])]
          Prod.fst
          (([((7 : Int), ([] : List RawVal))]).map Prod.fst)).map Prod.fst ∧
      ∀ k ∈ [(8 : Int)],
        k ∉ ([((7 : Int), ([] : List RawVal))]).map Prod.fst) :=
  ⟨by rfl, by simp,
    (c1_upsert_gets_exactly_new_rows [((7 : Int), ([] : List RawVal)),
        (8, [])] [((7 : Int), ([] : List RawVal))] Prod.fst "dimproduct"
        "products.csv" false).2
      [Action.fetchIds "dimproduct",
        Action.snapshotAppend "products.csv" [8],
        Action.upsert "dimproduct" [8]]
      (Except.ok [((7 : Int), ([] : List RawVal)), (8, [])])
      "dimproduct" [8] (by rfl) (by simp)⟩

/-- C7: `should_use_incremental` answers incremental exactly when the
representative dimension count is positive, and answers full on any
query/connection failure — the embedded function is total on the failure
case, so the error never propagates. -/
theorem c7_mode_detection :
    (∀ count, should_use_incremental (Except.ok count) = true ↔ 0 < count) ∧
    (∀ msg, should_use_incremental (Except.error msg) = false) := by
  constructor
  · intro count
    simp [should_use_incremental]
  · intro msg
    rfl

/-! ## Full-load ordering and error handling (C3, C4) -/

/-- A command touching one of the three dimension tables. -/
def touchesDim (c : Cmd) : Prop :=
  ∃ t ∈ ["dimproduct", "dimstore", "dimdate"],
    c = Cmd.del t ∨ c = Cmd.ins t

theorem insTables_append (a b : List Cmd) :
    insTables (a ++ b) = insTables a ++ insTables b :=
  List.filterMap_append a b _

theorem insTables_timed_load (t : TblLoad) (table : String) :
    insTables (timed_load t table) = if t.readOk then [table] else [] := by
  rcases t with ⟨r, i⟩
  cases r <;> cases i <;> rfl

theorem insTables_fullScriptCmds (a b c : Bool) :
    insTables (fullScriptCmds a b c) = [] := by
  cases a <;> cases b <;> cases c <;> rfl

/-- C3: in full-load mode, the fact-table clear is the very first command
— issued before any command touches a dimension table — and any
`factsales` insert can only be the last insert of the run. -/
theorem c3_full_load_order (o : LoadOracle) :
    (∀ i c, (run_load o).1.get? i = some c → touchesDim c →
       0 < i ∧ (run_load o).1.get? 0 = some (Cmd.del "factsales")) ∧
    "factsales" ∉ (insTables (run_load o).1).dropLast := by
  constructor
  · intro i c hget htouch
    rw [run_load] at hget ⊢
    by_cases hclear : o.clearOk = true
    · rw [hclear] at hget ⊢
      simp only [Bool.not_true, Bool.false_eq_true, if_false] at hget ⊢
      refine ⟨?_, rfl⟩
      rcases i with - | i
      · simp only [List.get?_cons_zero, Option.some.injEq] at hget
        rcases htouch with ⟨t, hmem, ht | ht⟩ <;> rw [← hget] at ht
        · injection ht with he
          rw [← he] at hmem
          simp at hmem
        · exact absurd ht (by simp)
      · exact Nat.succ_pos i
    · simp only [Bool.not_eq_true] at hclear
      rw [hclear] at hget
      simp at hget
  · rw [run_load]
    by_cases hclear : o.clearOk = true
    · rw [hclear]
      simp only [Bool.not_true, Bool.false_eq_true, if_false]
      have hrw : insTables (Cmd.del "factsales" ::
          (timed_load o.products "dimproduct" ++
           timed_load o.stores "dimstore" ++
           timed_load o.calendar "dimdate" ++
           timed_load o.sales "factsales" ++
           fullScriptCmds o.scriptConnOk o.failViews o.failIndexes)) =
          insTables (timed_load o.products "dimproduct") ++
          insTables (timed_load o.stores "dimstore") ++
          insTables (timed_load o.calendar "dimdate") ++
          insTables (timed_load o.sales "factsales") ++
          insTables (fullScriptCmds o.scriptConnOk o.failViews
            o.failIndexes) := by
        simp [insTables, List.filterMap_append]
      rw [hrw, insTables_timed_load, insTables_timed_load,
        insTables_timed_load, insTables_timed_load, insTables_fullScriptCmds]
      cases o.products.readOk <;> cases o.stores.readOk <;>
        cases o.calendar.readOk <;> cases o.sales.readOk <;> decide
    · simp only [Bool.not_eq_true] at hclear
      rw [hclear]
      simp [insTables]

/-- Witness for C3: on a fully successful run, the command at index 1
touches `dimproduct` and the command at index 0 is the fact-table
clear. -/
theorem c3_witness :
    (run_load ⟨true, ⟨true, true⟩, ⟨true, true⟩, ⟨true, true⟩,
        ⟨true, true⟩, true, false, false⟩).1.get? 1 =
      some (Cmd.del "dimproduct") ∧
    touchesDim (Cmd.del "dimproduct") ∧
    (0 < 1 ∧ (run_load ⟨true, ⟨true, true⟩, ⟨true, true⟩, ⟨true, true⟩,
        ⟨true, true⟩, true, false, false⟩).1.get? 0 =
      some (Cmd.del "factsales")) :=
  ⟨by rfl, ⟨"dimproduct", by simp⟩,
    (c3_full_load_order ⟨true, ⟨true, true⟩, ⟨true, true⟩, ⟨true, true⟩,
        ⟨true, true⟩, true, false, false⟩).1 1 (Cmd.del "dimproduct")
      (by rfl) ⟨"dimproduct", by simp⟩⟩

/-- Counterexample to C4 as stated: in full mode, with the `dimproduct`
bulk insert failing, the failure is logged (the `Cmd.logError` entries)
but the run does **not** abort: it returns normally and still issues the
`dimstore` insert afterwards — `timed_load` swallows the re-raised
error. -/
theorem c4_counterexample :
    (run_load ⟨true, ⟨true, false⟩, ⟨true, true⟩, ⟨true, true⟩,
        ⟨true, true⟩, true, false, false⟩).2 = Except.ok () ∧
    Cmd.logError "dimproduct" ∈
      (run_load ⟨true, ⟨true, false⟩, ⟨true, true⟩, ⟨true, true⟩,
        ⟨true, true⟩, true, false, false⟩).1 ∧
    Cmd.ins "dimstore" ∈
      (run_load ⟨true, ⟨true, false⟩, ⟨true, true⟩, ⟨true, true⟩,
        ⟨true, true⟩, true, false, false⟩).1 := by
  refine ⟨rfl, ?_, ?_⟩ <;> decide

/-- C4 as amended: an upsert failure in **incremental** mode is logged and
re-raised, aborting the run before the commit; in **full** mode the
failure is logged at both levels but `timed_load` swallows it, so
whenever the initial fact-table clear succeeds the run always completes
normally, continuing past any per-table read or insert failure. -/
theorem c4_amended :
    (∀ (o : Oracle) (wh : Warehouse) (inp : IncInput)
        (acts : List Action) (res : Except Unit Warehouse) (t : String),
        run_incremental_clean_and_load_all o wh inp = (acts, res) →
        Action.logUpsertError t ∈ acts →
        res = Except.error () ∧ Action.commit ∉ acts) ∧
    (∀ o : LoadOracle, o.clearOk = true →
        (run_load o).2 = Except.ok () ∧
        (o.products.readOk = true → o.products.insOk = false →
          Cmd.logError "dimproduct" ∈ (run_load o).1)) := by
  constructor
  · intro o wh inp acts res t h hmem
    rw [run_incremental_clean_and_load_all] at h
    split at h
    · rename_i a1 heq1
      rw [Prod.mk.injEq] at h
      obtain ⟨ha, hr⟩ := h
      subst ha
      refine ⟨hr.symm, ?_⟩
      exact (heq1 ▸ incremental_table_block_no_commit _ _ _ _ _ _ : _)
    · rename_i a1 p' heq1
      split at h
      · rename_i a2 heq2
        rw [Prod.mk.injEq] at h
        obtain ⟨ha, hr⟩ := h
        subst ha
        refine ⟨hr.symm, ?_⟩
        intro hc
        rcases List.mem_append.mp hc with hc | hc
        · exact (heq1 ▸ incremental_table_block_no_commit _ _ _ _ _ _) hc
        · exact (heq2 ▸ incremental_table_block_no_commit _ _ _ _ _ _) hc
      · rename_i a2 s' heq2
        split at h
        · rename_i a3 heq3
          rw [Prod.mk.injEq] at h
          obtain ⟨ha, hr⟩ := h
          subst ha
          refine ⟨hr.symm, ?_⟩
          intro hc
          rcases List.mem_append.mp hc with hc | hc
          rcases List.mem_append.mp hc with hc | hc
          · exact (heq1 ▸ incremental_table_block_no_commit _ _ _ _ _ _) hc
          · exact (heq2 ▸ incremental_table_block_no_commit _ _ _ _ _ _) hc
          · exact (heq3 ▸ incremental_table_block_no_commit _ _ _ _ _ _) hc
        · rename_i a3 d' heq3
          split at h
          · rw [Prod.mk.injEq] at h
            obtain ⟨ha, hr⟩ := h
            subst ha
            refine ⟨hr.symm, ?_⟩
            intro hc
            rcases List.mem_append.mp hc with hc | hc
            rcases List.mem_append.mp hc with hc | hc
            · exact (heq1 ▸ incremental_table_block_no_commit _ _ _ _ _ _)
                hc
            · exact (heq2 ▸ incremental_table_block_no_commit _ _ _ _ _ _)
                hc
            · exact (heq3 ▸ incremental_table_block_no_commit _ _ _ _ _ _)
                hc
          · rename_i salesC heqc
            split at h
            · rename_i a4 heq4
              rw [Prod.mk.injEq] at h
              obtain ⟨ha, hr⟩ := h
              subst ha
              refine ⟨hr.symm, ?_⟩
              intro hc
              rcases List.mem_append.mp hc with hc | hc
              rcases List.mem_append.mp hc with hc | hc
              rcases List.mem_append.mp hc with hc | hc
              · exact (heq1 ▸ incremental_table_block_no_commit _ _ _ _ _ _)
                  hc
              · exact (heq2 ▸ incremental_table_block_no_commit _ _ _ _ _ _)
                  hc
              · exact (heq3 ▸ incremental_table_block_no_commit _ _ _ _ _ _)
                  hc
              · exact (heq4 ▸ incremental_table_block_no_commit _ _ _ _ _ _)
                  hc
            · rename_i a4 f' heq4
              rw [Prod.mk.injEq] at h
              obtain ⟨ha, hr⟩ := h
              subst ha
              exfalso
              rcases List.mem_append.mp hmem with hm | hm
              · rcases List.mem_append.mp hm with hm | hm
                · rcases List.mem_append.mp hm with hm | hm
                  · rcases List.mem_append.mp hm with hm | hm
                    · rcases List.mem_append.mp hm with hm | hm
                      · exact incremental_table_block_ok_no_errlog heq1 t hm
                      · exact incremental_table_block_ok_no_errlog heq2 t hm
                    · exact incremental_table_block_ok_no_errlog heq3 t hm
                  · exact incremental_table_block_ok_no_errlog heq4 t hm
                · simp at hm
              · rw [scriptActions] at hm
                simp only [List.mem_cons] at hm
                rcases hm with hm | hm
                · exact absurd hm (by simp)
                · split at hm
                  · simp at hm
                  · simp only [List.mem_cons] at hm
                    rcases hm with hm | hm
                    · exact absurd hm (by simp)
                    · split at hm <;> simp at hm
  · intro o hclear
    constructor
    · rw [run_load, hclear]
      rfl
    · intro hread hins
      rw [run_load, hclear]
      simp only [Bool.not_true, Bool.false_eq_true, if_false]
      have : Cmd.logError "dimproduct" ∈ timed_load o.products
          "dimproduct" := by
        rw [timed_load, load_csv_to_table, hread, hins]
        simp
      simp [List.mem_append, this]

/-- Witness for C4 (amended): a failing `dimproduct` upsert in incremental
mode yields an aborted run with no commit, and the full-mode half applied
to the counterexample oracle: the run completes and the failure was
logged. -/
theorem c4_amended_witness :
    (run_incremental_clean_and_load_all
        ⟨true, false, false, false, false, false⟩ ⟨[], [], [], []⟩
        ⟨[(1, [])], [], [], []⟩ =
      ([Action.fetchIds "dimproduct",
        Action.snapshotAppend "products.csv" [1],
        Action.logUpsertError "dimproduct"], Except.error ())) ∧
    ((Except.error () : Except Unit Warehouse) = Except.error () ∧
      Action.commit ∉ [Action.fetchIds "dimproduct",
        Action.snapshotAppend "products.csv" [1],
        Action.logUpsertError "dimproduct"]) ∧
    ((run_load ⟨true, ⟨true, false⟩, ⟨true, true⟩, ⟨true, true⟩,
        ⟨true, true⟩, true, false, false⟩).2 = Except.ok () ∧
      (true = true → false = false →
        Cmd.logError "dimproduct" ∈
          (run_load ⟨true, ⟨true, false⟩, ⟨true, true⟩, ⟨true, true⟩,
            ⟨true, true⟩, true, false, false⟩).1)) :=
  ⟨by rfl,
    c4_amended.1 ⟨true, false, false, false, false, false⟩ ⟨[], [], [], []⟩
      ⟨[(1, [])], [], [], []⟩
      [Action.fetchIds "dimproduct",
        Action.snapshotAppend "products.csv" [1],
        Action.logUpsertError "dimproduct"] (Except.error ())
      "dimproduct" (by rfl) (by simp),
    c4_amended.2 ⟨true, ⟨true, false⟩, ⟨true, true⟩, ⟨true, true⟩,
      ⟨true, true⟩, true, false, false⟩ rfl⟩

/-! ## Configuration errors (C8) -/

/-- Counterexample to C8 as stated: with the password credential absent,
full mode, no cleaned files present, the run reads the raw files and
writes cleaned files **before** failing with the configuration error
(only `run_load` looks the credentials up). -/
theorem c8_counterexample :
    run_etl ⟨some "h", some "p", some "d", some "u", none⟩ false false
        false =
      ([OEvent.rawRead, OEvent.cleanedWrite, OEvent.cfgError],
       Except.error ()) ∧
    OEvent.rawRead ∈
      (run_etl ⟨some "h", some "p", some "d", some "u", none⟩ false false
        false).1 := by
  refine ⟨rfl, ?_⟩
  decide

/-- C8 as amended: a missing credential always makes the run fail with
the configuration error and no database command is ever issued; in
incremental mode the failure happens before any raw read or cleaned
write as well, but in full mode raw reads and cleaned writes may precede
it (they do whenever cleaning is not skipped). -/
theorem c8_amended (e : Env) (force incremental cleanedExist : Bool)
    (h : e.missing = true) :
    (run_etl e force incremental cleanedExist).2 = Except.error () ∧
    OEvent.dbCmd ∉ (run_etl e force incremental cleanedExist).1 ∧
    OEvent.cfgError ∈ (run_etl e force incremental cleanedExist).1 ∧
    (incremental = true →
      (run_etl e force incremental cleanedExist).1 = [OEvent.cfgError]) := by
  rw [run_etl]
  cases incremental
  · simp only [Bool.false_eq_true, if_false]
    rw [if_pos h]
    cases force <;> cases cleanedExist <;> simp
  · simp only [if_true]
    rw [if_pos h]
    simp

/-- Witness for C8 (amended), at a concrete environment missing the user
credential, in incremental mode. -/
theorem c8_amended_witness :
    (Env.missing ⟨some "h", some "p", some "d", none, some "s"⟩ = true) ∧
    ((run_etl ⟨some "h", some "p", some "d", none, some "s"⟩ false true
        false).2 = Except.error () ∧
      OEvent.dbCmd ∉ (run_etl ⟨some "h", some "p", some "d", none,
        some "s"⟩ false true false).1 ∧
      OEvent.cfgError ∈ (run_etl ⟨some "h", some "p", some "d", none,
        some "s"⟩ false true false).1 ∧
      (true = true →
        (run_etl ⟨some "h", some "p", some "d", none, some "s"⟩ false true
          false).1 = [OEvent.cfgError])) :=
  ⟨by rfl,
    c8_amended ⟨some "h", some "p", some "d", none, some "s"⟩ false true
      false (by rfl)⟩

/-! ## Store-city standardization (C5) -/

/-- Counterexample to C5 as stated: with a lookup table holding two rows
for the same raw city, the left merge duplicates the single store row —
the output has 2 rows for a 1-row store table. -/
theorem c5_counterexample :
    (standardize_city_names [⟨1, "MegaStore", "East", "NYC"⟩]
        [⟨"NYC", "New York"⟩, ⟨"NYC", "New York City"⟩]).length = 2 ∧
    ([(⟨1, "MegaStore", "East", "NYC"⟩ : StoreRow)]).length = 1 := by
  constructor <;> rfl

theorem filter_eq_find_toList (lookup : List LookupRow) (c : String)
    (h : (lookup.map LookupRow.rawcity).Nodup) :
    lookup.filter (fun l => l.rawcity == c) =
      (lookup.find? (fun l => l.rawcity == c)).toList := by
  induction lookup with
  | nil => rfl
  | cons l t ih =>
      rw [List.map_cons, List.nodup_cons] at h
      obtain ⟨hhead, htail⟩ := h
      by_cases hc : l.rawcity = c
      · have hbeq : (l.rawcity == c) = true := by simp [hc]
        rw [List.filter_cons, List.find?_cons]
        rw [hbeq]
        simp only [if_true]
        have hnil : t.filter (fun x => x.rawcity == c) = [] := by
          rw [List.filter_eq_nil_iff]
          intro x hx
          simp only [beq_iff_eq]
          intro hxc
          apply hhead
          have hxl : x.rawcity = l.rawcity := by rw [hxc, hc]
          exact hxl ▸ List.mem_map_of_mem LookupRow.rawcity hx
        rw [hnil]
        rfl
      · have hbeq : (l.rawcity == c) = false := by simp [hc]
        rw [List.filter_cons, List.find?_cons, hbeq]
        simp only [Bool.false_eq_true, if_false]
        exact ih htail

/-- C5 as amended: provided the lookup table has no duplicate raw-city
keys (pandas' one-to-many left merge is only row-count preserving then),
`standardize_city_names` maps each store row to exactly one output row —
the standardized city when the lookup matches, a null city otherwise —
so the row count is preserved, no row is dropped, and no row is
duplicated. -/
theorem c5_amended (stores : List StoreRow) (lookup : List LookupRow)
    (h : (lookup.map LookupRow.rawcity).Nodup) :
    standardize_city_names stores lookup =
      stores.map (fun s =>
        match lookup.find? (fun l => l.rawcity == s.city) with
        | none => ⟨s.storeid, s.storename, s.region, none⟩
        | some m => ⟨s.storeid, s.storename, s.region,
            some m.standardcity⟩) ∧
    (standardize_city_names stores lookup).length = stores.length := by
  have hmain : standardize_city_names stores lookup =
      stores.map (fun s =>
        match lookup.find? (fun l => l.rawcity == s.city) with
        | none => ⟨s.storeid, s.storename, s.region, none⟩
        | some m => ⟨s.storeid, s.storename, s.region,
            some m.standardcity⟩) := by
    induction stores with
    | nil => rfl
    | cons s t ih =>
        rw [standardize_city_names] at ih ⊢
        rw [List.flatMap_cons, List.map_cons, ih]
        rw [filter_eq_find_toList lookup s.city h]
        cases lookup.find? (fun l => l.rawcity == s.city) <;> rfl
  exact ⟨hmain, by rw [hmain, List.length_map]⟩

/-- Witness for C5 (amended) at the spec's example: one store in NYC, a
one-row lookup, output is the same single row with the standardized
city. -/
theorem c5_amended_witness :
    (([(⟨"NYC", "New York"⟩ : LookupRow)]).map LookupRow.rawcity).Nodup ∧
    (standardize_city_names [⟨1, "MegaStore", "East", "NYC"⟩]
        [⟨"NYC", "New York"⟩] =
      ([⟨1, "MegaStore", "East", "NYC"⟩] : List StoreRow).map (fun s =>
        match ([(⟨"NYC", "New York"⟩ : LookupRow)]).find?
            (fun l => l.rawcity == s.city) with
        | none => ⟨s.storeid, s.storename, s.region, none⟩
        | some m => ⟨s.storeid, s.storename, s.region,
            some m.standardcity⟩) ∧
      (standardize_city_names [⟨1, "MegaStore", "East", "NYC"⟩]
        [⟨"NYC", "New York"⟩]).length =
        ([⟨1, "MegaStore", "East", "NYC"⟩] : List StoreRow).length) :=
  ⟨by simp,
    c5_amended [⟨1, "MegaStore", "East", "NYC"⟩] [⟨"NYC", "New York"⟩]
      (by simp)⟩

/-! ## Bad sales dateid aborts before the FactSales section (C10) -/

theorem coerce_sales_dateid_error :
    ∀ (l : List SRow) (r : SRow) (msg : String), r ∈ l →
      astype_int r.2.1 = Except.error msg →
      ∃ e, coerce_sales_dateid l = Except.error e := by
  intro l
  induction l with
  | nil =>
      intro r msg hr _
      exact absurd hr (List.not_mem_nil r)
  | cons x t ih =>
      intro r msg hr hbad
      rw [coerce_sales_dateid]
      rcases hx : astype_int x.2.1 with e | n
      · exact ⟨e, rfl⟩
      · rcases List.mem_cons.mp hr with hre | hrt
        · rw [← hre, hbad] at hx
          exact absurd hx (by simp)
        · obtain ⟨e, he⟩ := ih r msg hrt hbad
          rw [he]
          exact ⟨e, rfl⟩

/-- In a block for a table other than FactSales, no action mentions the
fact table or the sales snapshot, and no commit occurs. -/
theorem incremental_table_block_no_sales_action {ρ : Type}
    {table file : String} (ht : table ≠ "factsales")
    (hf : file ≠ "sales.csv") (key : ρ → Int) (fails : Bool)
    (wh cleaned : List ρ) :
    ∀ a ∈ (incremental_table_block table file key fails wh cleaned).1,
      a ≠ Action.fetchIds "factsales" ∧
      (∀ ks, a ≠ Action.snapshotAppend "sales.csv" ks) ∧
      (∀ ks, a ≠ Action.upsert "factsales" ks) ∧
      a ≠ Action.commit := by
  intro a ha
  rcases incremental_table_block_mem ha with h | h | h | h | h <;> subst h <;>
    exact ⟨by simp [ht, hf], fun ks => by simp [ht, hf],
      fun ks => by simp [ht, hf], by simp⟩

/-- C10: if any raw sales row has a `dateid` that is null or not
coercible to an integer, the incremental run fails at the `astype(int)`
coercion, before the FactSales exists-check, snapshot append, or upsert —
and before the commit. -/
theorem c10_bad_sales_dateid_aborts (o : Oracle) (wh : Warehouse)
    (inp : IncInput) (r : SRow) (msg : String) (hr : r ∈ inp.sales)
    (hbad : astype_int r.2.1 = Except.error msg) :
    ∃ acts, run_incremental_clean_and_load_all o wh inp =
        (acts, Except.error ()) ∧
      ∀ a ∈ acts, a ≠ Action.fetchIds "factsales" ∧
        (∀ ks, a ≠ Action.snapshotAppend "sales.csv" ks) ∧
        (∀ ks, a ≠ Action.upsert "factsales" ks) ∧
        a ≠ Action.commit := by
  obtain ⟨e, hcoerce⟩ :=
    coerce_sales_dateid_error inp.sales r msg hr hbad
  rw [run_incremental_clean_and_load_all]
  rcases hb1 : incremental_table_block "dimproduct" "products.csv" Prod.fst
      o.failProduct wh.dimproduct inp.products with ⟨a1, r1⟩
  have hsafe1 : ∀ a ∈ a1, a ≠ Action.fetchIds "factsales" ∧
      (∀ ks, a ≠ Action.snapshotAppend "sales.csv" ks) ∧
      (∀ ks, a ≠ Action.upsert "factsales" ks) ∧
      a ≠ Action.commit := by
    intro a ha
    exact incremental_table_block_no_sales_action
      (show "dimproduct" ≠ "factsales" by decide)
      (show "products.csv" ≠ "sales.csv" by decide)
      Prod.fst o.failProduct wh.dimproduct inp.products a
      (by rw [hb1]; exact ha)
  cases r1 with
  | error err => exact ⟨a1, rfl, hsafe1⟩
  | ok p' =>
      rcases hb2 : incremental_table_block "dimstore" "stores.csv" Prod.fst
          o.failStore wh.dimstore inp.stores with ⟨a2, r2⟩
      have hsafe2 : ∀ a ∈ a2, a ≠ Action.fetchIds "factsales" ∧
          (∀ ks, a ≠ Action.snapshotAppend "sales.csv" ks) ∧
          (∀ ks, a ≠ Action.upsert "factsales" ks) ∧
          a ≠ Action.commit := by
        intro a ha
        exact incremental_table_block_no_sales_action
          (show "dimstore" ≠ "factsales" by decide)
          (show "stores.csv" ≠ "sales.csv" by decide)
          Prod.fst o.failStore wh.dimstore inp.stores a
          (by rw [hb2]; exact ha)
      cases r2 with
      | error err =>
          refine ⟨a1 ++ a2, rfl, ?_⟩
          intro a ha
          rcases List.mem_append.mp ha with ha | ha
          · exact hsafe1 a ha
          · exact hsafe2 a ha
      | ok s' =>
          rcases hb3 : incremental_table_block "dimdate" "calendar.csv"
              Prod.fst o.failDate wh.dimdate inp.calendar with ⟨a3, r3⟩
          have hsafe3 : ∀ a ∈ a3, a ≠ Action.fetchIds "factsales" ∧
              (∀ ks, a ≠ Action.snapshotAppend "sales.csv" ks) ∧
              (∀ ks, a ≠ Action.upsert "factsales" ks) ∧
              a ≠ Action.commit := by
            intro a ha
            exact incremental_table_block_no_sales_action
              (show "dimdate" ≠ "factsales" by decide)
              (show "calendar.csv" ≠ "sales.csv" by decide)
              Prod.fst o.failDate wh.dimdate inp.calendar a
              (by rw [hb3]; exact ha)
          cases r3 with
          | error err =>
              refine ⟨a1 ++ a2 ++ a3, rfl, ?_⟩
              intro a ha
              rcases List.mem_append.mp ha with ha | ha
              · rcases List.mem_append.mp ha with ha | ha
                · exact hsafe1 a ha
                · exact hsafe2 a ha
              · exact hsafe3 a ha
          | ok d' =>
              rw [hcoerce]
              refine ⟨a1 ++ a2 ++ a3, rfl, ?_⟩
              intro a ha
              rcases List.mem_append.mp ha with ha | ha
              · rcases List.mem_append.mp ha with ha | ha
                · exact hsafe1 a ha
                · exact hsafe2 a ha
              · exact hsafe3 a ha

/-- Witness for C10: a single sales row with a null `dateid` aborts the
run right after the three dimension sections. -/
theorem c10_witness :
    ((5, RawVal.null, []) ∈ ([((5 : Int), RawVal.null, [])] : List SRow)) ∧
    astype_int RawVal.null =
      Except.error "cannot convert NA to integer" ∧
    (∃ acts, run_incremental_clean_and_load_all
        ⟨false, false, false, false, false, false⟩ ⟨[], [], [], []⟩
        ⟨[], [], [], [((5 : Int), RawVal.null, [])]⟩ =
        (acts, Except.error ()) ∧
      ∀ a ∈ acts, a ≠ Action.fetchIds "factsales" ∧
        (∀ ks, a ≠ Action.snapshotAppend "sales.csv" ks) ∧
        (∀ ks, a ≠ Action.upsert "factsales" ks) ∧
        a ≠ Action.commit) :=
  ⟨by simp, by rfl,
    c10_bad_sales_dateid_aborts ⟨false, false, false, false, false, false⟩
      ⟨[], [], [], []⟩ ⟨[], [], [], [((5 : Int), RawVal.null, [])]⟩
      ((5 : Int), RawVal.null, []) "cannot convert NA to integer"
      (by simp) (by rfl)⟩

/-! ## Idempotence of the incremental load (C2) -/

/-- C2: a second incremental run on the warehouse state left by a
successful first run, with unchanged input, finds an empty delta for
every table: it performs no upsert and no snapshot append, leaves the
warehouse state unchanged, logs "no new rows" for all four tables, and
(scripts themselves permitting) still executes both maintenance
scripts. -/
theorem c2_second_run_is_noop (o : Oracle) (wh : Warehouse)
    (inp : IncInput) (acts₁ : List Action) (wh₁ : Warehouse)
    (hviews : o.failViews = false)
    (h : run_incremental_clean_and_load_all o wh inp =
      (acts₁, Except.ok wh₁)) :
    ∃ acts₂, run_incremental_clean_and_load_all o wh₁ inp =
        (acts₂, Except.ok wh₁) ∧
      (∀ t ks, Action.upsert t ks ∉ acts₂) ∧
      (∀ f ks, Action.snapshotAppend f ks ∉ acts₂) ∧
      Action.logNoNew "dimproduct" ∈ acts₂ ∧
      Action.logNoNew "dimstore" ∈ acts₂ ∧
      Action.logNoNew "dimdate" ∈ acts₂ ∧
      Action.logNoNew "factsales" ∈ acts₂ ∧
      Action.execScript "kpi_views.sql" ∈ acts₂ ∧
      Action.execScript "kpi_indexes.sql" ∈ acts₂ := by
  rw [run_incremental_clean_and_load_all] at h
  rcases hb1 : incremental_table_block "dimproduct" "products.csv" Prod.fst
      o.failProduct wh.dimproduct inp.products with ⟨a1, r1⟩
  rw [hb1] at h
  cases r1 with
  | error err => simp at h
  | ok p' =>
  rcases hb2 : incremental_table_block "dimstore" "stores.csv" Prod.fst
      o.failStore wh.dimstore inp.stores with ⟨a2, r2⟩
  rw [hb2] at h
  cases r2 with
  | error err => simp at h
  | ok s' =>
  rcases hb3 : incremental_table_block "dimdate" "calendar.csv" Prod.fst
      o.failDate wh.dimdate inp.calendar with ⟨a3, r3⟩
  rw [hb3] at h
  cases r3 with
  | error err => simp at h
  | ok d' =>
  rcases hbc : coerce_sales_dateid inp.sales with e | salesC
  · rw [hbc] at h
    simp at h
  · rw [hbc] at h
    dsimp only at h
    rcases hb4 : incremental_table_block "factsales" "sales.csv" Prod.fst
        o.failSales wh.factsales salesC with ⟨a4, r4⟩
    rw [hb4] at h
    cases r4 with
    | error err => simp at h
    | ok f' =>
    dsimp only at h
    have hwh : wh₁ = ⟨p', s', d', f'⟩ := by
      rw [Prod.mk.injEq] at h
      obtain ⟨-, h2⟩ := h
      injection h2 with h3
      exact h3.symm
    subst hwh
    have hsat1 : ∀ r ∈ inp.products, Prod.fst r ∈ p'.map Prod.fst :=
      incremental_table_block_ok_keys hb1
    have hsat2 : ∀ r ∈ inp.stores, Prod.fst r ∈ s'.map Prod.fst :=
      incremental_table_block_ok_keys hb2
    have hsat3 : ∀ r ∈ inp.calendar, Prod.fst r ∈ d'.map Prod.fst :=
      incremental_table_block_ok_keys hb3
    have hsat4 : ∀ r ∈ salesC, Prod.fst r ∈ f'.map Prod.fst :=
      incremental_table_block_ok_keys hb4
    refine ⟨[Action.fetchIds "dimproduct", Action.logNoNew "dimproduct"] ++
      [Action.fetchIds "dimstore", Action.logNoNew "dimstore"] ++
      [Action.fetchIds "dimdate", Action.logNoNew "dimdate"] ++
      [Action.fetchIds "factsales", Action.logNoNew "factsales"] ++
      [Action.commit] ++ scriptActions o.failViews o.failIndexes,
      ?_, ?_, ?_, ?_, ?_, ?_, ?_, ?_, ?_⟩
    · rw [run_incremental_clean_and_load_all]
      have e1 := incremental_table_block_saturated "dimproduct"
        "products.csv" Prod.fst o.failProduct p' inp.products hsat1
      have e2 := incremental_table_block_saturated "dimstore" "stores.csv"
        Prod.fst o.failStore s' inp.stores hsat2
      have e3 := incremental_table_block_saturated "dimdate" "calendar.csv"
        Prod.fst o.failDate d' inp.calendar hsat3
      have e4 := incremental_table_block_saturated "factsales" "sales.csv"
        Prod.fst o.failSales f' salesC hsat4
      dsimp only
      rw [e1]
      dsimp only
      rw [e2]
      dsimp only
      rw [e3]
      dsimp only
      rw [hbc]
      dsimp only
      rw [e4]
    · intro t ks hmem
      rw [hviews] at hmem
      rcases hfi : o.failIndexes <;>
        simp [scriptActions, hfi, List.mem_append] at hmem
    · intro f ks hmem
      rw [hviews] at hmem
      rcases hfi : o.failIndexes <;>
        simp [scriptActions, hfi, List.mem_append] at hmem
    · simp
    · simp
    · simp
    · simp
    · rw [hviews]
      simp [scriptActions]
    · rw [hviews]
      simp [scriptActions]

/-- Witness for C2 at a concrete first run that inserts one product and
one sales row into an empty warehouse. -/
theorem c2_witness :
    ((⟨false, false, false, false, false, false⟩ : Oracle).failViews
        = false) ∧
    run_incremental_clean_and_load_all
        ⟨false, false, false, false, false, false⟩ ⟨[], [], [], []⟩
        ⟨[((1 : Int), [])], [], [], [((5 : Int), RawVal.intv 3, [])]⟩ =
      ([Action.fetchIds "dimproduct",
        Action.snapshotAppend "products.csv" [1],
        Action.upsert "dimproduct" [1]] ++
       [Action.fetchIds "dimstore", Action.logNoNew "dimstore"] ++
       [Action.fetchIds "dimdate", Action.logNoNew "dimdate"] ++
       [Action.fetchIds "factsales",
        Action.snapshotAppend "sales.csv" [5],
        Action.upsert "factsales" [5]] ++
       [Action.commit] ++ scriptActions false false,
       Except.ok ⟨[((1 : Int), [])], [], [],
         [((5 : Int), RawVal.intv 3, [])]⟩) ∧
    (∃ acts₂, run_incremental_clean_and_load_all
        ⟨false, false, false, false, false, false⟩
        ⟨[((1 : Int), [])], [], [], [((5 : Int), RawVal.intv 3, [])]⟩
        ⟨[((1 : Int), [])], [], [], [((5 : Int), RawVal.intv 3, [])]⟩ =
        (acts₂, Except.ok ⟨[((1 : Int), [])], [], [],
          [((5 : Int), RawVal.intv 3, [])]⟩) ∧
      (∀ t ks, Action.upsert t ks ∉ acts₂) ∧
      (∀ f ks, Action.snapshotAppend f ks ∉ acts₂) ∧
      Action.logNoNew "dimproduct" ∈ acts₂ ∧
      Action.logNoNew "dimstore" ∈ acts₂ ∧
      Action.logNoNew "dimdate" ∈ acts₂ ∧
      Action.logNoNew "factsales" ∈ acts₂ ∧
      Action.execScript "kpi_views.sql" ∈ acts₂ ∧
      Action.execScript "kpi_indexes.sql" ∈ acts₂) :=
  ⟨rfl, by rfl,
    c2_second_run_is_noop ⟨false, false, false, false, false, false⟩
      ⟨[], [], [], []⟩
      ⟨[((1 : Int), [])], [], [], [((5 : Int), RawVal.intv 3, [])]⟩
      _ _ rfl (by rfl)⟩

/-! ## Logger factory idempotence (C9) -/

theorem lookup_map_update (n : String) (st : LoggerState) :
    ∀ (reg : Registry), (reg.lookup n).isSome = true →
      (reg.map (fun p => if p.1 = n then (n, st) else p)).lookup n =
        some st := by
  intro reg
  induction reg with
  | nil => intro h; simp [List.lookup] at h
  | cons p t ih =>
      intro h
      by_cases hp : p.1 = n
      · simp only [List.map_cons, hp, if_pos]
        simp [List.lookup]
      · simp only [List.map_cons, hp, if_neg, ite_false]
        rw [List.lookup] at h ⊢
        have hbeq : (n == p.1) = false := by
          simp [Ne.symm hp]
        rw [hbeq] at h ⊢
        exact ih h

theorem lookup_none_map_id (n : String) (st : LoggerState) :
    ∀ (reg : Registry), reg.lookup n = none →
      reg.map (fun p => if p.1 = n then (n, st) else p) = reg := by
  intro reg
  induction reg with
  | nil => intro _; rfl
  | cons p t ih =>
      intro h
      rw [List.lookup] at h
      rcases hbeq : n == p.1 with - | -
      · rw [hbeq] at h
        have hp : p.1 ≠ n := by
          intro hc
          rw [hc] at hbeq
          simp at hbeq
        simp only [List.map_cons, hp, if_neg, ite_false]
        rw [ih h]
      · rw [hbeq] at h
        simp at h

theorem lookup_setReg_self (reg : Registry) (n : String)
    (st : LoggerState) : (setReg reg n st).lookup n = some st := by
  rw [setReg]
  split
  · exact lookup_map_update n st reg (by assumption)
  · simp [List.lookup]

theorem getLogger_setReg (reg : Registry) (n : String) (st : LoggerState) :
    getLogger (setReg reg n st) n = st := by
  rw [getLogger, lookup_setReg_self]
  rfl

theorem setReg_setReg (reg : Registry) (n : String) (st : LoggerState) :
    setReg (setReg reg n st) n st = setReg reg n st := by
  have h1 : ((setReg reg n st).lookup n).isSome = true := by
    rw [lookup_setReg_self]; rfl
  conv_lhs => rw [setReg]
  rw [if_pos h1]
  rw [setReg]
  split
  · rw [List.map_map]
    apply List.map_congr_left
    intro p _
    by_cases hp : p.1 = n <;> simp [Function.comp, hp]
  · rename_i hnone
    have hln : reg.lookup n = none := by
      cases hl : reg.lookup n
      · rfl
      · exact absurd (by rw [hl]; rfl) hnone
    rw [List.map_cons]
    rw [lookup_none_map_id n st reg hln]
    simp

/-- A single `setup_logger` call is idempotent on the registry. -/
theorem setup_logger_idem (reg : Registry) (n p : String) :
    setup_logger (setup_logger reg n p) n p = setup_logger reg n p := by
  conv_lhs => rw [setup_logger]
  rw [setup_logger]
  try dsimp only
  rw [getLogger_setReg]
  try dsimp only
  by_cases hc : (getLogger reg n).handlers.isEmpty = true
  · rw [if_pos hc]
    try dsimp only
    rw [if_neg (show
        ¬([Handler.fileHandler p, Handler.consoleHandler].isEmpty = true)
        by simp)]
    exact setReg_setReg reg n _
  · rw [if_neg hc]
    try dsimp only
    rw [if_neg hc]
    exact setReg_setReg reg n _

/-- C9: the logger factory is idempotent: for every number `k ≥ 1` of
repeated calls with the same logger name, the registry (and hence the
returned logger and its handler set) equals the state after one call —
no duplicate handlers are ever added. -/
theorem c9_setup_logger_idempotent (reg : Registry) (n p : String)
    (k : Nat) (hk : 1 ≤ k) :
    setup_logger_iter k reg n p = setup_logger reg n p ∧
    (getLogger (setup_logger_iter k reg n p) n).handlers =
      (getLogger (setup_logger reg n p) n).handlers := by
  have hmain : ∀ m, setup_logger_iter (m + 1) reg n p =
      setup_logger reg n p := by
    intro m
    induction m with
    | zero => rfl
    | succ m ih =>
        show setup_logger (setup_logger_iter (m + 1) reg n p) n p = _
        rw [ih, setup_logger_idem]
  obtain ⟨m, rfl⟩ : ∃ m, k = m + 1 := ⟨k - 1, by omega⟩
  exact ⟨hmain m, by rw [hmain m]⟩

/-- Witness for C9: three calls on the empty registry with the default
name and log file equal one call. -/
theorem c9_witness :
    1 ≤ 3 ∧
    (setup_logger_iter 3 [] "cityretail.etl" "etl.log" =
        setup_logger [] "cityretail.etl" "etl.log" ∧
      (getLogger (setup_logger_iter 3 [] "cityretail.etl" "etl.log")
          "cityretail.etl").handlers =
        (getLogger (setup_logger [] "cityretail.etl" "etl.log")
          "cityretail.etl").handlers) :=
  ⟨by decide, c9_setup_logger_idempotent [] "cityretail.etl" "etl.log" 3
    (by decide)⟩

/-! ## Calendar parsing (C6) -/

theorem daysInYear_bounds (y : Nat) :
    365 ≤ daysInYear y ∧ daysInYear y ≤ 366 := by
  rw [daysInYear]
  split <;> omega

set_option maxHeartbeats 1000000 in
theorem daysBeforeYear_succ (y : Nat) (hy : 1 ≤ y) :
    daysBeforeYear (y + 1) = daysBeforeYear y + daysInYear y := by
  simp only [daysBeforeYear, daysInYear, isLeap, Nat.add_sub_cancel]
  split <;> rename_i hleap <;>
    simp only [Bool.or_eq_true, Bool.and_eq_true, beq_iff_eq, bne_iff_ne,
      ne_eq] at hleap <;> omega

/-- Bounds and weekday congruence of the ISO week-1 Monday: it lies
within three days of January 1st and is always a Monday (day ordinal
congruent to 1 modulo 7). -/
theorem isoweek1monday_bounds (y : Nat) :
    (daysBeforeYear y : Int) + 1 - 3 ≤ isoweek1monday y ∧
    isoweek1monday y ≤ (daysBeforeYear y : Int) + 1 + 3 ∧
    isoweek1monday y % 7 = 1 := by
  simp only [isoweek1monday]
  split <;> rename_i hfw <;> omega

set_option maxHeartbeats 1000000 in
/-- The ISO week number of any valid date lies in [1, 53]. -/
theorem isoWeekNumber_bounds (y doy : Nat) (hy : 1 ≤ y) (h1 : 1 ≤ doy)
    (h2 : doy ≤ daysInYear y) :
    1 ≤ isoWeekNumber y doy ∧ isoWeekNumber y doy ≤ 53 := by
  have hb := isoweek1monday_bounds y
  have hb' := isoweek1monday_bounds (y + 1)
  have hbp := isoweek1monday_bounds (y - 1)
  have hsucc := daysBeforeYear_succ y hy
  have hdy := daysInYear_bounds y
  have hdyp := daysInYear_bounds (y - 1)
  simp only [isoWeekNumber, dayOrdinal]
  by_cases hy1 : y = 1
  · subst hy1
    have e0 : isoweek1monday (1 - 1) = 1 := by decide
    have e1 : isoweek1monday 1 = 1 := by decide
    have e2 : isoweek1monday (1 + 1) = 365 := by decide
    have d1 : daysBeforeYear 1 = 0 := by decide
    have dd1 : daysInYear 1 = 365 := by decide
    rw [dd1] at h2
    split
    · omega
    · split
      · omega
      · omega
  · have hsuccp : daysBeforeYear y =
        daysBeforeYear (y - 1) + daysInYear (y - 1) := by
      have hstep := daysBeforeYear_succ (y - 1) (by omega)
      rw [Nat.sub_add_cancel (by omega : 1 ≤ y)] at hstep
      exact hstep
    split
    · omega
    · split
      · omega
      · omega

/-- Counterexample to C6 as stated: on a row whose date string fails to
parse, `date` and `weeknumber` are null but `isweekend` is `False`, not
null — pandas' `dt.weekday >= 5` turns the NaN weekday into `False`
inside a non-nullable boolean column. -/
theorem c6_counterexample :
    parse_calendar_dates (fun _ => none) [⟨1, "not-a-date"⟩] =
      [⟨1, none, none, some false⟩] ∧
    (some false : Option Bool) ≠ none := by
  exact ⟨rfl, by simp⟩

/-- C6 as amended: on every row whose date failed to parse, `date` and
`weeknumber` are null and `isweekend` is false (not null); on every row
with a parsed date, `weeknumber` is its ISO week number, which lies in
[1, 53], and `isweekend` is true exactly when the parsed weekday is
Saturday (5) or Sunday (6). -/
theorem c6_amended (p : String → Option IsoDate) (df : List CalRow)
    (row : CleanCalRow) (hrow : row ∈ parse_calendar_dates p df) :
    (row.date = none → row.weeknumber = none ∧
      row.isweekend = some false) ∧
    (∀ d, row.date = some d →
      row.weeknumber = some (isoWeekNumber d.year d.doy) ∧
      1 ≤ isoWeekNumber d.year d.doy ∧ isoWeekNumber d.year d.doy ≤ 53 ∧
      (row.isweekend = some true ↔
        weekdayOfOrdinal d.ordinal = 5 ∨ weekdayOfOrdinal d.ordinal = 6)) := by
  rw [parse_calendar_dates] at hrow
  rcases List.mem_map.mp hrow with ⟨r, -, hrw⟩
  subst hrw
  constructor
  · intro hdate
    dsimp only at hdate ⊢
    rw [hdate]
    exact ⟨rfl, rfl⟩
  · intro d hdate
    dsimp only at hdate ⊢
    rw [hdate]
    refine ⟨rfl, (isoWeekNumber_bounds d.year d.doy d.hYear d.hLow
      d.hHigh).1, (isoWeekNumber_bounds d.year d.doy d.hYear d.hLow
      d.hHigh).2, ?_⟩
    have hw : weekdayOfOrdinal d.ordinal < 7 := by
      rw [weekdayOfOrdinal]
      omega
    simp only [Option.map_some', pandasWeekdayGe5, Option.some.injEq,
      decide_eq_true_eq]
    omega

/-- A concrete parsed date for the C6 witness: 2024-06-15
(day 167 of 2024), a Saturday in ISO week 24. -/
def june15 : IsoDate :=
  ⟨2024, 167, by decide, by decide, by decide⟩

/-- Witness for C6 (amended) at a one-row calendar whose date parses to
2024-06-15: week number 24 within bounds, `isweekend` true since the
weekday is Saturday. -/
theorem c6_amended_witness :
    ((⟨1, some june15, some (isoWeekNumber 2024 167),
        some (pandasWeekdayGe5 (some (weekdayOfOrdinal june15.ordinal)))⟩ :
      CleanCalRow) ∈
        parse_calendar_dates (fun _ => some june15) [⟨1, "2024-06-15"⟩]) ∧
    ((⟨1, some june15, some (isoWeekNumber 2024 167),
        some (pandasWeekdayGe5 (some (weekdayOfOrdinal june15.ordinal)))⟩ :
      CleanCalRow).date = some june15) ∧
    ((⟨1, some june15, some (isoWeekNumber 2024 167),
        some (pandasWeekdayGe5 (some (weekdayOfOrdinal june15.ordinal)))⟩ :
      CleanCalRow).weeknumber = some (isoWeekNumber june15.year
        june15.doy) ∧
      1 ≤ isoWeekNumber june15.year june15.doy ∧
      isoWeekNumber june15.year june15.doy ≤ 53 ∧
      ((⟨1, some june15, some (isoWeekNumber 2024 167),
          some (pandasWeekdayGe5 (some (weekdayOfOrdinal
            june15.ordinal)))⟩ : CleanCalRow).isweekend = some true ↔
        weekdayOfOrdinal june15.ordinal = 5 ∨
          weekdayOfOrdinal june15.ordinal = 6)) :=
  by
  have hmem : (⟨1, some june15, some (isoWeekNumber 2024 167),
      some (pandasWeekdayGe5 (some (weekdayOfOrdinal june15.ordinal)))⟩ :
        CleanCalRow) ∈
      parse_calendar_dates (fun _ => some june15) [⟨1, "2024-06-15"⟩] := by
    rw [parse_calendar_dates]
    exact List.mem_map.mpr ⟨⟨1, "2024-06-15"⟩, by simp, rfl⟩
  exact ⟨hmem, rfl,
    (c6_amended (fun _ => some june15) [⟨1, "2024-06-15"⟩] _ hmem).2
      june15 rfl⟩

end CityRetail
